import Mathlib

/-!
Shallow embedding of `src/openvpn/init/scoped_acq.hpp` (namespace
`openvpn::InitProcess`), the scoped resource-acquisition stack, together
with proofs of the specified ordering properties.

Modelling notes, each definition below is translated from the named C++
entity:

* A `ScopedAcqStack<E0, ..., E(n-1)>` specialisation is modelled by the
  list of its element kinds (`List K`) or, where only positions matter,
  by its length `n`.  Position `i` stands for the guard declared at
  template-parameter position `i`.
* The observable side effects are the constructor (acquire) and
  destructor (release) calls of the guard objects; they are modelled as
  an event trace (`Ev`).  `Ev.acqFail i` records that the constructor of
  the guard at position `i` was entered and threw.
* `sas_element` mirrors the `sas_element` recursion including its
  `ScopedAcqStack<>` error specialisation, whose `static_assert
  (I < sas_size<ScopedAcqStack<>>::value)` can never hold, i.e. an
  out-of-range index is rejected when the program is built; this
  build-time rejection is modelled by the `none` result.
* `rev_elts_acc`/`rev_elts_is` mirror the `rev_elts` template recursion
  that turns the count `sizeof...(Elements)` into the index pack handed
  to `stk_builder` (for 3 elements the pack `<2, 1, 0>`).
* `stk_builder_ok` records for which index packs the `stk_builder`
  template has a definition: the primary template `template <typename T,
  std::size_t... Is> struct stk_builder;` is declared but never defined,
  so the empty pack (reached exactly when `sizeof...(Elements) == 0`)
  makes the program ill-formed; `sas_wellFormed n` is therefore the
  build-time instantiability of `ScopedAcqStack` with `n` elements.
* `stk_builder_order` gives the order in which the `stk_builder`
  constructor bodies run: each level derives from the level handling the
  remaining pack, and in C++ a base-class subobject is constructed
  before the derived constructor body, so the last pack entry is pushed
  first.
* `buildLoop` runs those constructor bodies in order.  Each body does
  `new sas_element<I, T>::type` (the acquire side effect) and pushes the
  resulting handle on the `std::stack<std::unique_ptr<ScopedAcq>>` held
  by the `virtual sas_stk` base; the stack is kept bottom-first, push is
  an append.  If the `new`-ed constructor throws, C++ stack unwinding
  destroys the already constructed base subobjects, ending with the
  virtual `sas_stk` base; destroying its `std::stack` destroys the
  underlying `std::deque`, which destroys its elements front-to-back,
  i.e. the held handles are released bottom-first (forward declaration
  order), and then the exception continues to the caller of the
  `ScopedAcqStack` constructor.  (Front-to-back element destruction is
  the behaviour of the deployed standard-library implementations; the
  C++ standard leaves container element destruction order unspecified,
  and it is in particular not the reverse order.)
* On success the `ScopedAcqStack` constructor moves the built stack into
  the member `stack_`; the moved-from local is left empty, so its later
  destruction produces no events and is not modelled.
* `dtorLoop` is `~ScopedAcqStack`'s `while (!stack_.empty())
  stack_.pop();` loop, with the stack top-first (the `reverse` of the
  bottom-first build result) and an explicit fuel bound so that
  termination in exactly `n` iterations is a theorem rather than an
  assumption.
-/

namespace ScopedAcqSpec

/-- One observable side effect of the program: the constructor (acquire)
or destructor (release) of the guard object at a declared position, or a
constructor entered at a position that then throws. -/
inductive Ev : Type where
  | acq : Nat → Ev
  | acqFail : Nat → Ev
  | rel : Nat → Ev
deriving DecidableEq

/-- `sas_size<ScopedAcqStack<Elements...>>`: the number of element
kinds, `sizeof...(Elements)`. -/
def sas_size {K : Type} (ks : List K) : Nat := ks.length

/-- `sas_element<I, ScopedAcqStack<Elements...>>::type`: peel the head
while `I > 0`; at `I = 0` yield the head; on the empty element list the
error specialisation's `static_assert` fires, i.e. the lookup is
rejected at build time (`none`). -/
def sas_element {K : Type} : Nat → List K → Option K
  | _, [] => none
  | 0, k :: _ => some k
  | i + 1, _ :: tl => sas_element i tl

/-- The `rev_elts` recursion: `rev_elts<T, I, Is...>` derives from
`rev_elts<T, I - 1, Is..., I - 1>`, and `rev_elts<T, 0, Is...>` hands
the accumulated pack `Is...` to `stk_builder`. -/
def rev_elts_acc : Nat → List Nat → List Nat
  | 0, is => is
  | i + 1, is => rev_elts_acc i (is ++ [i])

/-- The index pack `stk_builder` receives for an `n`-element stack:
`rev_elts<type, sizeof...(Elements)>` starts with an empty pack. For
`n = 3` this is `[2, 1, 0]`. -/
def rev_elts_is (n : Nat) : List Nat := rev_elts_acc n []

/-- Whether `stk_builder<T, Is...>` has a definition for a given index
pack: the one-index and index-plus-tail specialisations are defined, the
primary template (empty pack) is only declared, so deriving from it is
ill-formed. -/
def stk_builder_ok : List Nat → Bool
  | [] => false
  | [_] => true
  | _ :: is => stk_builder_ok is

/-- Build-time instantiability of `ScopedAcqStack` with `n` element
kinds: its constructor instantiates `rev_elts<type, n>`, which derives
from `stk_builder` applied to the pack `rev_elts_is n`. -/
def sas_wellFormed (n : Nat) : Bool := stk_builder_ok (rev_elts_is n)

/-- The order in which the `stk_builder` constructor bodies run for a
given index pack: the base subobject (remaining pack) is constructed
before the current level's body pushes its index, so the pack is
reversed. For the pack `[2, 1, 0]` the bodies run for indices
`0, 1, 2`. -/
def stk_builder_order : List Nat → List Nat
  | [] => []
  | i :: is => stk_builder_order is ++ [i]

/-- Run the `stk_builder` constructor bodies for the positions in
`order`, with `built` the positions already pushed (bottom of the
`std::stack` first). A body acquires its guard (`Ev.acq`) and pushes the
handle; if the guard constructor throws (`fails i`), unwinding destroys
the `sas_stk` virtual base, releasing the held handles front-to-back
(bottom-first), and no stack reaches the caller (`none`). -/
def buildLoop (fails : Nat → Bool) : List Nat → List Nat → List Ev × Option (List Nat)
  | built, [] => ([], some built)
  | built, i :: rest =>
    if fails i then
      (Ev.acqFail i :: built.map Ev.rel, none)
    else
      let res := buildLoop fails (built ++ [i]) rest
      (Ev.acq i :: res.1, res.2)

/-- The `ScopedAcqStack` constructor for `n` element kinds: instantiate
`rev_elts<type, n>`, whose `stk_builder` bases build the stack; returns
the event trace and, on success, the stack contents bottom-first. -/
def constructRun (fails : Nat → Bool) (n : Nat) : List Ev × Option (List Nat) :=
  buildLoop fails [] (stk_builder_order (rev_elts_is n))

/-- Event trace of a failure-free construction. -/
def constructEvs (n : Nat) : List Ev := (constructRun (fun _ => false) n).1

/-- Stack contents (bottom-first) after a failure-free construction. -/
def constructStack (n : Nat) : List Nat := ((constructRun (fun _ => false) n).2).getD []

/-- The destructor loop `while (!stack_.empty()) stack_.pop();`, stack
top-first, with explicit fuel: each iteration pops (and thereby
releases) exactly the top handle; when the fuel runs out the remaining
stack is returned unchanged. -/
def dtorLoop : Nat → List Nat → List Ev × List Nat
  | 0, s => ([], s)
  | _ + 1, [] => ([], [])
  | fuel + 1, top :: rest =>
    let res := dtorLoop fuel rest
    (Ev.rel top :: res.1, res.2)

/-- Event trace of destroying a fully constructed `n`-guard stack. -/
def destructEvs (n : Nat) : List Ev :=
  (dtorLoop (constructStack n).length ((constructStack n).reverse)).1

/-- Full construct-then-destroy event trace of one `ScopedAcqStack`
value with `n` element kinds. -/
def cycleTrace (n : Nat) : List Ev := constructEvs n ++ destructEvs n

/-- Event trace of `c` sequential, non-overlapping construct/destroy
cycles of the same `n`-element specialisation. -/
def runCycles : Nat → Nat → List Ev
  | 0, _ => []
  | c + 1, n => cycleTrace n ++ runCycles c n

/-- The guard kinds acquired during construction, in acquisition order:
each `stk_builder` body at index `I` news a `sas_element<I, T>::type`. -/
def acqKinds {K : Type} (ks : List K) : List (Option K) :=
  (stk_builder_order (rev_elts_is (sas_size ks))).map (fun i => sas_element i ks)

/-- Index of the first occurrence of an event in a trace (the trace
length if absent): `evPos e t < evPos e' t` states that `e` is observed
strictly before `e'`. -/
def evPos (e : Ev) : List Ev → Nat
  | [] => 0
  | x :: xs => if x = e then 0 else evPos e xs + 1

/-! ### Basic lemmas about the embedded definitions -/

theorem rev_elts_acc_eq (n : Nat) : ∀ is, rev_elts_acc n is = is ++ (List.range n).reverse := by
  induction n with
  | zero => intro is; simp [rev_elts_acc]
  | succ n ih =>
    intro is
    rw [rev_elts_acc, ih, List.range_succ]
    simp

theorem rev_elts_is_eq (n : Nat) : rev_elts_is n = (List.range n).reverse := by
  simp [rev_elts_is, rev_elts_acc_eq]

theorem stk_builder_order_eq : ∀ is : List Nat, stk_builder_order is = is.reverse := by
  intro is
  induction is with
  | nil => rfl
  | cons i is ih => simp [stk_builder_order, ih]

theorem stk_builder_ok_cons (i : Nat) (is : List Nat) : stk_builder_ok (i :: is) = true := by
  induction is generalizing i with
  | nil => rfl
  | cons j js ih => exact ih j

theorem range_reverse_succ (n : Nat) :
    (List.range (n + 1)).reverse = n :: (List.range n).reverse := by
  rw [List.range_succ, List.reverse_append]
  rfl

theorem sas_wellFormed_pos (n : Nat) (h : 0 < n) : sas_wellFormed n = true := by
  cases n with
  | zero => omega
  | succ m =>
    unfold sas_wellFormed
    rw [rev_elts_is_eq, range_reverse_succ]
    exact stk_builder_ok_cons m _

theorem stk_order_range (n : Nat) : stk_builder_order (rev_elts_is n) = List.range n := by
  rw [rev_elts_is_eq, stk_builder_order_eq, List.reverse_reverse]

theorem buildLoop_no_fail (fails : Nat → Bool) :
    ∀ (order built : List Nat), (∀ i ∈ order, fails i = false) →
      buildLoop fails built order = (order.map Ev.acq, some (built ++ order)) := by
  intro order
  induction order with
  | nil => intro built _; simp [buildLoop]
  | cons i rest ih =>
    intro built h
    have hi : fails i = false := h i (by simp)
    have hrest : ∀ j ∈ rest, fails j = false := fun j hj => h j (by simp [hj])
    simp [buildLoop, hi, ih (built ++ [i]) hrest]

theorem buildLoop_fail (fails : Nat → Bool) (k : Nat) (hk : fails k = true) :
    ∀ (pre built post : List Nat), (∀ i ∈ pre, fails i = false) →
      buildLoop fails built (pre ++ k :: post) =
        (pre.map Ev.acq ++ Ev.acqFail k :: (built ++ pre).map Ev.rel, none) := by
  intro pre
  induction pre with
  | nil => intro built post _; simp [buildLoop, hk]
  | cons i pre ih =>
    intro built post h
    have hi : fails i = false := h i (by simp)
    have hpre : ∀ j ∈ pre, fails j = false := fun j hj => h j (by simp [hj])
    simp [buildLoop, hi, ih (built ++ [i]) post hpre]

theorem constructRun_no_fail (n : Nat) :
    constructRun (fun _ => false) n = ((List.range n).map Ev.acq, some (List.range n)) := by
  unfold constructRun
  rw [stk_order_range, buildLoop_no_fail (fun _ => false) (List.range n) [] (by simp)]
  simp

theorem constructEvs_eq (n : Nat) : constructEvs n = (List.range n).map Ev.acq := by
  simp [constructEvs, constructRun_no_fail]

theorem constructStack_eq (n : Nat) : constructStack n = List.range n := by
  simp [constructStack, constructRun_no_fail]

theorem range_split (k m : Nat) :
    List.range (k + 1 + m) =
      List.range k ++ k :: ((List.range m).map (fun x => k + 1 + x)) := by
  rw [List.range_add, List.range_succ]
  simp

theorem constructRun_first_fail (n k : Nat) (fails : Nat → Bool) (hk : k < n)
    (hf : fails k = true) (hmin : ∀ j ∈ List.range k, fails j = false) :
    constructRun fails n =
      ((List.range k).map Ev.acq ++ Ev.acqFail k :: (List.range k).map Ev.rel, none) := by
  unfold constructRun
  rw [stk_order_range]
  have hn : n = k + 1 + (n - k - 1) := by omega
  rw [hn, range_split, buildLoop_fail fails k hf (List.range k) [] _ hmin]
  simp

theorem dtorLoop_complete : ∀ (s : List Nat) (fuel : Nat), s.length ≤ fuel →
    dtorLoop fuel s = (s.map Ev.rel, []) := by
  intro s
  induction s with
  | nil =>
    intro fuel _
    cases fuel <;> rfl
  | cons top rest ih =>
    intro fuel h
    cases fuel with
    | zero => simp at h
    | succ f =>
      have hr : rest.length ≤ f := by simp at h; omega
      simp [dtorLoop, ih f hr]

theorem destructEvs_eq (n : Nat) : destructEvs n = ((List.range n).reverse).map Ev.rel := by
  unfold destructEvs
  rw [constructStack_eq, dtorLoop_complete ((List.range n).reverse) _ (by simp)]

theorem cycleTrace_eq (n : Nat) :
    cycleTrace n = (List.range n).map Ev.acq ++ ((List.range n).reverse).map Ev.rel := by
  rw [cycleTrace, constructEvs_eq, destructEvs_eq]

theorem evPos_append_mem (e : Ev) :
    ∀ (l1 l2 : List Ev), e ∈ l1 → evPos e (l1 ++ l2) = evPos e l1 := by
  intro l1
  induction l1 with
  | nil => intro l2 h; simp at h
  | cons x xs ih =>
    intro l2 h
    by_cases hx : x = e
    · simp [evPos, hx]
    · have hm : e ∈ xs := by
        rcases List.mem_cons.mp h with h1 | h1
        · exact absurd h1.symm hx
        · exact h1
      simp [evPos, hx, ih l2 hm]

theorem evPos_append_not_mem (e : Ev) :
    ∀ (l1 l2 : List Ev), e ∉ l1 → evPos e (l1 ++ l2) = l1.length + evPos e l2 := by
  intro l1
  induction l1 with
  | nil => intro l2 _; simp [evPos]
  | cons x xs ih =>
    intro l2 h
    have hx : ¬x = e := fun hc => h (by simp [hc])
    have hxs : e ∉ xs := fun hc => h (by simp [hc])
    have hstep : evPos e ((x :: xs) ++ l2) = evPos e (xs ++ l2) + 1 := by
      simp [evPos, hx]
    rw [hstep, ih l2 hxs, List.length_cons]
    omega

theorem acq_injective : Function.Injective Ev.acq := by
  intro a b h
  cases h
  rfl

theorem rel_injective : Function.Injective Ev.rel := by
  intro a b h
  cases h
  rfl

theorem evPos_acq_range (n i : Nat) (h : i < n) :
    evPos (Ev.acq i) ((List.range n).map Ev.acq) = i := by
  induction n with
  | zero => omega
  | succ n ih =>
    rw [List.range_succ, List.map_append]
    by_cases hi : i < n
    · rw [evPos_append_mem _ _ _ (List.mem_map_of_mem Ev.acq (List.mem_range.mpr hi))]
      exact ih hi
    · have hin : i = n := by omega
      subst hin
      have hnm : Ev.acq i ∉ (List.range i).map Ev.acq := by
        intro hmem
        rcases List.mem_map.mp hmem with ⟨a, ha, hae⟩
        have hai : a = i := acq_injective hae
        subst hai
        exact absurd (List.mem_range.mp ha) (lt_irrefl _)
      rw [evPos_append_not_mem _ _ _ hnm]
      simp [evPos]

theorem evPos_rel_revRange (n i : Nat) (h : i < n) :
    evPos (Ev.rel i) (((List.range n).reverse).map Ev.rel) = n - 1 - i := by
  induction n with
  | zero => omega
  | succ n ih =>
    rw [range_reverse_succ]
    by_cases hi : i < n
    · have hne : ¬Ev.rel n = Ev.rel i := by simp; omega
      simp only [List.map_cons, evPos, hne, if_false]
      rw [ih hi]
      omega
    · have hin : i = n := by omega
      subst hin
      simp [evPos]

theorem range_map_sas_element {K : Type} (ks : List K) :
    (List.range ks.length).map (fun i => sas_element i ks) = ks.map some := by
  induction ks with
  | nil => simp
  | cons a l ih =>
    rw [List.length_cons, List.range_succ_eq_map, List.map_cons, List.map_map]
    have hc : ((fun i => sas_element i (a :: l)) ∘ Nat.succ) = (fun i => sas_element i l) := by
      funext i
      rfl
    rw [hc, ih]
    rfl

theorem count_some_map_some {K : Type} [DecidableEq K] (ks : List K) (k : K) :
    (ks.map some).count (some k) = ks.count k := by
  induction ks with
  | nil => rfl
  | cons a l ih =>
    simp only [List.map_cons, List.count_cons, ih]
    by_cases hak : a = k
    · simp [hak]
    · simp [hak]

theorem sas_element_eq_getElem {K : Type} : ∀ (ks : List K) (i : Nat), sas_element i ks = ks[i]? := by
  intro ks
  induction ks with
  | nil => intro i; cases i <;> rfl
  | cons a l ih =>
    intro i
    cases i with
    | zero => simp [sas_element]
    | succ j => simpa [sas_element] using ih j

/-! ### The claims -/

/-- Claim C1: for every `n`-element `ScopedAcqStack` and indices
`i < j < n`, the specialisation is instantiable, `rev_elts` passes the
index pack `n-1 .. 0` to `stk_builder` (the reverse of `range n`), the
builder constructor bodies therefore run for index `0` first
(`stk_builder_order` yields `range n`), and the acquire side effect of
the guard at position `i` is observed strictly before that of the guard
at position `j` in the construction trace. -/
theorem c1_acquire_order (n i j : Nat) (hij : i < j) (hj : j < n) :
    sas_wellFormed n = true ∧
    rev_elts_is n = (List.range n).reverse ∧
    stk_builder_order (rev_elts_is n) = List.range n ∧
    evPos (Ev.acq i) (constructEvs n) < evPos (Ev.acq j) (constructEvs n) := by
  refine ⟨sas_wellFormed_pos n (by omega), rev_elts_is_eq n, stk_order_range n, ?_⟩
  rw [constructEvs_eq, evPos_acq_range n i (by omega), evPos_acq_range n j hj]
  exact hij

/-- Claim C1, witnessed at `n = 3`, `i = 0`, `j = 2`. -/
theorem c1_acquire_order_witness :
    sas_wellFormed 3 = true ∧
    rev_elts_is 3 = (List.range 3).reverse ∧
    stk_builder_order (rev_elts_is 3) = List.range 3 ∧
    evPos (Ev.acq 0) (constructEvs 3) < evPos (Ev.acq 2) (constructEvs 3) :=
  c1_acquire_order 3 0 2 (by decide) (by decide)

/-- Claim C2: destroying a fully constructed `n`-element stack pops the
handles top-first, so the destruction trace is the releases of positions
`n-1 .. 0`, and for `i < j < n` the release of position `j` is observed
strictly before the release of position `i`. -/
theorem c2_release_order (n i j : Nat) (hij : i < j) (hj : j < n) :
    destructEvs n = ((List.range n).reverse).map Ev.rel ∧
    evPos (Ev.rel j) (destructEvs n) < evPos (Ev.rel i) (destructEvs n) := by
  refine ⟨destructEvs_eq n, ?_⟩
  rw [destructEvs_eq, evPos_rel_revRange n j hj, evPos_rel_revRange n i (by omega)]
  omega

/-- Claim C2, witnessed at `n = 3`, `i = 0`, `j = 2`. -/
theorem c2_release_order_witness :
    destructEvs 3 = ((List.range 3).reverse).map Ev.rel ∧
    evPos (Ev.rel 2) (destructEvs 3) < evPos (Ev.rel 0) (destructEvs 3) :=
  c2_release_order 3 0 2 (by decide) (by decide)

/-- Claim C3 counterexample: with three guards where the guard at
position `2` fails to acquire, the guards at positions `0` and `1` are
released in forward order (`rel 0` before `rel 1`, the order in which
the unwound container destroys its elements), not in the reverse order
(`rel 1` before `rel 0`) the claim requires. -/
theorem c3_rollback_counterexample :
    (constructRun (fun i => i == 2) 3).1 =
      [Ev.acq 0, Ev.acq 1, Ev.acqFail 2, Ev.rel 0, Ev.rel 1] ∧
    ¬(constructRun (fun i => i == 2) 3).1 =
      [Ev.acq 0, Ev.acq 1, Ev.acqFail 2, Ev.rel 1, Ev.rel 0] := by
  decide

/-- Claim C3 as amended: if the acquire step of the guard at position
`k` fails during construction, the already acquired guards at positions
`0 .. k-1` are each released exactly once before the failure is
propagated to the constructor's caller — so no acquired resource leaks —
but the releases happen in forward order (position `0` first, position
`k-1` last, the element-destruction order of the unwound container),
not in reverse order. -/
theorem c3_rollback_amended (n k : Nat) (fails : Nat → Bool) (hk : k < n)
    (hf : fails k = true) (hmin : ∀ j ∈ List.range k, fails j = false) :
    (constructRun fails n).1 =
      (List.range k).map Ev.acq ++ Ev.acqFail k :: (List.range k).map Ev.rel ∧
    (constructRun fails n).2 = none := by
  rw [constructRun_first_fail n k fails hk hf hmin]
  exact ⟨rfl, rfl⟩

/-- Claim C3 as amended, witnessed at three guards with position `2`
failing. -/
theorem c3_rollback_amended_witness :
    (constructRun (fun i => i == 2) 3).1 =
      (List.range 2).map Ev.acq ++ Ev.acqFail 2 :: (List.range 2).map Ev.rel ∧
    (constructRun (fun i => i == 2) 3).2 = none :=
  c3_rollback_amended 3 2 (fun i => i == 2) (by decide) (by decide) (by decide)

/-- Claim C4: if the acquire step of the guard at position `k` fails
during construction, no guard at a position above `k` is ever acquired,
the failure is surfaced to the caller (no stack value is produced), each
guard at positions `0 .. k-1` is released exactly once, and the full
observable trace is the acquires of `0 .. k-1`, the failing acquire at
`k`, then the releases of `0 .. k-1`. -/
theorem c4_fail_stops_later_acquires (n k : Nat) (fails : Nat → Bool) (hk : k < n)
    (hf : fails k = true) (hmin : ∀ j ∈ List.range k, fails j = false) :
    (∀ j, k < j → Ev.acq j ∉ (constructRun fails n).1) ∧
    (constructRun fails n).2 = none ∧
    (∀ j ∈ List.range k, ((constructRun fails n).1).count (Ev.rel j) = 1) ∧
    (constructRun fails n).1 =
      (List.range k).map Ev.acq ++ Ev.acqFail k :: (List.range k).map Ev.rel := by
  rw [constructRun_first_fail n k fails hk hf hmin]
  refine ⟨?_, rfl, ?_, rfl⟩
  · intro j hj hmem
    rcases List.mem_append.mp hmem with hm | hm
    · rcases List.mem_map.mp hm with ⟨a, ha, hae⟩
      have haj : a = j := acq_injective hae
      subst haj
      have := List.mem_range.mp ha
      omega
    · rcases List.mem_cons.mp hm with hm1 | hm1
      · exact Ev.noConfusion hm1
      · rcases List.mem_map.mp hm1 with ⟨a, _, hae⟩
        exact Ev.noConfusion hae
  · intro j hj
    have h1 : (((List.range k).map Ev.acq).count (Ev.rel j)) = 0 := by
      rw [List.count_eq_zero]
      intro hmem
      rcases List.mem_map.mp hmem with ⟨a, _, hae⟩
      exact Ev.noConfusion hae
    have h2 : (((List.range k).map Ev.rel).count (Ev.rel j)) = 1 := by
      rw [List.count_map_of_injective _ _ rel_injective]
      exact List.count_eq_one_of_mem (List.nodup_range k) hj
    rw [List.count_append, h1, List.count_cons, h2]
    simp

/-- Claim C4, witnessed at guards `A, B, C` (positions `0, 1, 2`) with
`B` failing: the trace is `A.acquire, B.acquire(fails), A.release`. -/
theorem c4_fail_stops_later_acquires_witness :
    (∀ j, 1 < j → Ev.acq j ∉ (constructRun (fun i => i == 1) 3).1) ∧
    (constructRun (fun i => i == 1) 3).2 = none ∧
    (∀ j ∈ List.range 1, ((constructRun (fun i => i == 1) 3).1).count (Ev.rel j) = 1) ∧
    (constructRun (fun i => i == 1) 3).1 =
      (List.range 1).map Ev.acq ++ Ev.acqFail 1 :: (List.range 1).map Ev.rel :=
  c4_fail_stops_later_acquires 3 1 (fun i => i == 1) (by decide) (by decide) (by decide)

/-- Claim C5: constructing then destroying one `n`-element stack
invokes the acquire of every position exactly once and the release of
every position exactly once (the specialisation being instantiable for
`n ≥ 1`; for `n = 0` there is no position, and no instance builds at
all). -/
theorem c5_exactly_once (n i : Nat) (h : i < n) :
    sas_wellFormed n = true ∧
    (cycleTrace n).count (Ev.acq i) = 1 ∧
    (cycleTrace n).count (Ev.rel i) = 1 := by
  refine ⟨sas_wellFormed_pos n (by omega), ?_, ?_⟩
  · rw [cycleTrace_eq, List.count_append]
    have h1 : (((List.range n).map Ev.acq).count (Ev.acq i)) = 1 := by
      rw [List.count_map_of_injective _ _ acq_injective]
      exact List.count_eq_one_of_mem (List.nodup_range n) (List.mem_range.mpr h)
    have h2 : ((((List.range n).reverse).map Ev.rel).count (Ev.acq i)) = 0 := by
      rw [List.count_eq_zero]
      intro hmem
      rcases List.mem_map.mp hmem with ⟨a, _, hae⟩
      exact Ev.noConfusion hae
    rw [h1, h2]
  · rw [cycleTrace_eq, List.count_append]
    have h1 : (((List.range n).map Ev.acq).count (Ev.rel i)) = 0 := by
      rw [List.count_eq_zero]
      intro hmem
      rcases List.mem_map.mp hmem with ⟨a, _, hae⟩
      exact Ev.noConfusion hae
    have h2 : ((((List.range n).reverse).map Ev.rel).count (Ev.rel i)) = 1 := by
      rw [List.count_map_of_injective _ _ rel_injective, List.count_reverse]
      exact List.count_eq_one_of_mem (List.nodup_range n) (List.mem_range.mpr h)
    rw [h1, h2]

/-- Claim C5, witnessed at `n = 3`, `i = 1`. -/
theorem c5_exactly_once_witness :
    sas_wellFormed 3 = true ∧
    (cycleTrace 3).count (Ev.acq 1) = 1 ∧
    (cycleTrace 3).count (Ev.rel 1) = 1 :=
  c5_exactly_once 3 1 (by decide)

/-- Claim C6 counterexample: a `ScopedAcqStack<>` with zero element
kinds cannot be constructed at all — its constructor instantiates
`rev_elts<type, 0>`, which derives from `stk_builder` applied to the
empty index pack, and the `stk_builder` primary template is declared
but never defined, so the program is ill-formed (rejected when
built). -/
theorem c6_empty_counterexample : ¬sas_wellFormed 0 = true := by
  decide

/-- Claim C6 as amended: for `N = 0`, `rev_elts` hands the empty index
pack to `stk_builder`, for which no definition exists, so the
`ScopedAcqStack<>` specialisation is rejected at build time; no
instance, and hence no acquire or release side effect, can ever be
produced. -/
theorem c6_empty_amended :
    rev_elts_is 0 = [] ∧ stk_builder_ok [] = false ∧ sas_wellFormed 0 = false := by
  decide

/-- Claim C7: `sas_size` of a stack with `N` declared element kinds is
`N`, and `sas_element` at index `i` yields exactly the kind declared at
position `i` for `i < N` (`some`), while for `i ≥ N` the recursion
reaches the `ScopedAcqStack<>` error specialisation whose
`static_assert` can never hold, i.e. the lookup is rejected when the
program is built, modelled as `none` — together: `sas_element i ks`
equals the positional lookup `ks[i]?`. -/
theorem c7_size_element (K : Type) (ks : List K) (i : Nat) :
    sas_size ks = ks.length ∧ sas_element i ks = ks[i]? :=
  ⟨rfl, sas_element_eq_getElem ks i⟩

/-- Claim C8: two sequential, non-overlapping construct/destroy cycles
of the same instantiable specialisation produce the identical
acquire/release side-effect sequence: the two-cycle trace is the
one-cycle trace repeated, and its first and second halves coincide. -/
theorem c8_deterministic_cycles (n : Nat) (_h : sas_wellFormed n = true) :
    runCycles 2 n = cycleTrace n ++ cycleTrace n ∧
    (runCycles 2 n).take (cycleTrace n).length =
      (runCycles 2 n).drop (cycleTrace n).length := by
  have h2 : runCycles 2 n = cycleTrace n ++ cycleTrace n := by
    simp [runCycles]
  refine ⟨h2, ?_⟩
  rw [h2, List.take_left, List.drop_left]

/-- Claim C8, witnessed at `n = 2`. -/
theorem c8_deterministic_cycles_witness :
    runCycles 2 2 = cycleTrace 2 ++ cycleTrace 2 ∧
    (runCycles 2 2).take (cycleTrace 2).length =
      (runCycles 2 2).drop (cycleTrace 2).length :=
  c8_deterministic_cycles 2 (by decide)

/-- Claim C9: when a guard kind occurs at several positions of the
declared list, each occurrence is built as an independent handle: the
constructed container holds one handle per position (`range N`, `N` in
total), and the number of acquire side effects whose kind is `k` equals
the number of positions declared with kind `k` — once per position, not
once per distinct kind. -/
theorem c9_repeated_kinds (K : Type) [DecidableEq K] (ks : List K) (k : K) (h : k ∈ ks) :
    sas_wellFormed (sas_size ks) = true ∧
    constructStack (sas_size ks) = List.range ks.length ∧
    (constructStack (sas_size ks)).length = sas_size ks ∧
    (acqKinds ks).count (some k) = ks.count k := by
  refine ⟨sas_wellFormed_pos _ (List.length_pos.mpr (List.ne_nil_of_mem h)),
    constructStack_eq _, ?_, ?_⟩
  · rw [constructStack_eq]
    simp [sas_size]
  · unfold acqKinds
    rw [stk_order_range]
    simp only [sas_size]
    rw [range_map_sas_element]
    exact count_some_map_some ks k

/-- Claim C9, witnessed at the kind list `[7, 7, 9]` with the duplicated
kind `7`, acquired twice (once per position). -/
theorem c9_repeated_kinds_witness :
    sas_wellFormed (sas_size [7, 7, 9]) = true ∧
    constructStack (sas_size [7, 7, 9]) = List.range (List.length [7, 7, 9]) ∧
    (constructStack (sas_size [7, 7, 9])).length = sas_size [7, 7, 9] ∧
    (acqKinds [7, 7, 9]).count (some 7) = List.count 7 [7, 7, 9] :=
  c9_repeated_kinds Nat [7, 7, 9] 7 (by decide)

/-- Claim C10: the destructor's pop loop terminates — any iteration
budget of at least the number of held handles (in particular exactly
`n` for a fully constructed `n`-guard stack) runs it to completion,
each iteration removing exactly one handle, producing exactly `n`
release events and leaving the container empty. -/
theorem c10_dtor_terminates (n fuel : Nat) (h : n ≤ fuel) :
    dtorLoop fuel ((constructStack n).reverse) =
      (((List.range n).reverse).map Ev.rel, []) ∧
    (dtorLoop fuel ((constructStack n).reverse)).1.length = n := by
  have hlen : ((constructStack n).reverse).length = n := by
    rw [constructStack_eq]
    simp
  have hrun : dtorLoop fuel ((constructStack n).reverse) =
      (((List.range n).reverse).map Ev.rel, []) := by
    rw [dtorLoop_complete _ fuel (by rw [hlen]; exact h), constructStack_eq]
  refine ⟨hrun, ?_⟩
  rw [hrun]
  simp

/-- Claim C10, witnessed at `n = 2` with fuel `5`. -/
theorem c10_dtor_terminates_witness :
    dtorLoop 5 ((constructStack 2).reverse) =
      (((List.range 2).reverse).map Ev.rel, []) ∧
    (dtorLoop 5 ((constructStack 2).reverse)).1.length = 2 :=
  c10_dtor_terminates 2 5 (by decide)

end ScopedAcqSpec
